import Mathlib

/-!
Verification of the event-aggregation pipeline of vilabot.cat (`scraper.py`).

The Python module is shallowly embedded: pure string manipulation and list
processing are translated directly; the HTTP fetch and the BeautifulSoup
HTML traversal are modelled as oracle parameters (functions supplied to the
embedded pipeline), so every control-flow decision of the Python code around
them is preserved.  Machine-level caveats: Python `str.lower` is modelled on
the ASCII range (no claim here depends on non-ASCII case mapping) and
`str.strip` on the ASCII whitespace characters.
-/

namespace Vilabot

/-! ## String primitives mirroring the Python built-ins used by scraper.py -/

/-- Python `needle in hay` on lists of characters: `needle` occurs as a
contiguous substring of `hay` (the empty needle always occurs). -/
def containsSub (needle : List Char) : List Char → Bool
  | [] => needle.isEmpty
  | c :: rest => needle.isPrefixOf (c :: rest) || containsSub needle rest

/-- Python `needle in hay` on strings (substring containment). -/
def pyIn (needle hay : String) : Bool :=
  containsSub needle.data hay.data

/-- Python `s.lower()`, modelled on the ASCII letters. -/
def pyLower (s : String) : String :=
  ⟨s.data.map Char.toLower⟩

/-- The ASCII whitespace characters stripped by Python `str.strip()`. -/
def isPySpace (c : Char) : Bool :=
  c = ' ' || c = '\t' || c = '\n' || c = '\x0d' || c = '\x0b' || c = '\x0c'

/-- Python `s.strip()` (ASCII whitespace) on a character list. -/
def stripWS (l : List Char) : List Char :=
  ((l.dropWhile isPySpace).reverse.dropWhile isPySpace).reverse

/-- Python `s.strip()` on strings. -/
def pyStrip (s : String) : String :=
  ⟨stripWS s.data⟩

/-- Python `s.startswith(pre)`. -/
def pyStartsWith (s pre : String) : Bool :=
  pre.data.isPrefixOf s.data

/-- Python `s.rstrip('/')`: remove every trailing `'/'`. -/
def pyRstripSlash (s : String) : String :=
  ⟨(s.data.reverse.dropWhile (fun c => c = '/')).reverse⟩

/-- Python truthiness of an optional string: `None` and `""` are falsy. -/
def pyFalsy : Option String → Bool
  | none => true
  | some s => s = ""

/-- Python `str(x)` for an optional string as interpolated by an f-string:
`None` prints as `"None"`. -/
def pyStrOfOpt : Option String → String
  | none => "None"
  | some s => s

/-! ## Data model (scraper.py) -/

/-- The six CSS selectors of a source's `selectors` dict. -/
structure Selectors where
  event_container : String
  title : String
  date : String
  location : String
  description : String
  link : String
deriving DecidableEq, Repr

/-- One entry of the `SOURCES` registry (scraper.py lines 25-104). -/
structure Source where
  name : String
  url : String
  srcType : String
  search_url : Option String
  selectors : Selectors
  enabled : Bool
deriving DecidableEq, Repr

/-- An event dictionary as produced by `parse_events_from_html` or
`_get_demo_events`.  `none` models a missing key / `None` value. -/
structure EventRecord where
  title : Option String
  date : Option String
  location : Option String
  description : Option String
  source_url : Option String
  source_name : String
deriving DecidableEq, Repr

/-- The extracted query intent consumed by the scraper.  `location` is
doubly optional: `none` models a dict without the key, `some none` a dict
with the key bound to Python `None` (as `llm.py`'s fallback produces), and
`some (some s)` a string value. -/
structure Intent where
  keywords : List String
  location : Option (Option String)
deriving DecidableEq, Repr

/-- The dict returned by `scrape_all_sources`. -/
structure AggResult where
  content : List EventRecord
  sources_scraped : Nat
  events_found : Nat
deriving DecidableEq, Repr

/-- The `SOURCES` registry as shipped (scraper.py lines 25-104): four
descriptors, all with `enabled = False`. -/
def SOURCES : List Source :=
  [ { name := "Agenda Cultural Gencat"
    , url := "https://agenda.cultura.gencat.cat"
    , srcType := "html"
    , search_url := some "https://agenda.cultura.gencat.cat/cerca?text=\x7bkeywords\x7d"
    , selectors :=
      { event_container := ".event-item", title := ".event-title"
      , date := ".event-date", location := ".event-location"
      , description := ".event-description", link := "a" }
    , enabled := false }
  , { name := "Surt de Casa"
    , url := "https://www.surtdecasa.cat"
    , srcType := "html"
    , search_url := some "https://www.surtdecasa.cat/cerca?q=\x7bkeywords\x7d"
    , selectors :=
      { event_container := ".activity-card", title := ".activity-title"
      , date := ".activity-date", location := ".activity-location"
      , description := ".activity-excerpt", link := "a" }
    , enabled := false }
  , { name := "Barcelona Cultura"
    , url := "https://www.barcelona.cat/barcelonacultura"
    , srcType := "html"
    , search_url := some "https://www.barcelona.cat/barcelonacultura/ca/agenda?text=\x7bkeywords\x7d"
    , selectors :=
      { event_container := ".agenda-item", title := "h3"
      , date := ".date", location := ".location"
      , description := ".description", link := "a" }
    , enabled := false }
  , { name := "Festa Catalunya"
    , url := "https://www.festacatalunya.cat"
    , srcType := "html"
    , search_url := some "https://www.festacatalunya.cat/?s=\x7bkeywords\x7d"
    , selectors :=
      { event_container := "article", title := ".entry-title"
      , date := ".event-date", location := ".event-location"
      , description := ".entry-summary", link := "a" }
    , enabled := false }
  ]

/-! ## Extractor link resolution (scraper.py lines 176-185) -/

/-- Link resolution inside `parse_events_from_html`: hrefs starting with
`"http"` pass through; hrefs starting with `"/"` are appended to
`base_url.rstrip('/')`; everything else is appended after a `'/'`. -/
def resolveLink (base_url href : String) : String :=
  if pyStartsWith href "http" then href
  else if pyStartsWith href "/" then pyRstripSlash base_url ++ href
  else pyRstripSlash base_url ++ "/" ++ href

/-- Modelled from the spec: the "origin" of a URL as §4.2 step 5 uses the
word — the scheme and host, i.e. everything up to (excluding) the first
`'/'` after the `"://"` separator.  Used only to compare the spec's claimed
resolution rule with the code's `resolveLink`. -/
def splitSchemeAux : List Char → Option (List Char × List Char)
  | ':' :: '/' :: '/' :: rest => some ([], rest)
  | c :: rest => (splitSchemeAux rest).map (fun p => (c :: p.1, p.2))
  | [] => none

/-- Modelled from the spec: origin of a URL (scheme `++ "://" ++` host). -/
def specUrlOrigin (url : String) : String :=
  match splitSchemeAux url.data with
  | some (scheme, rest) => ⟨scheme ++ [':', '/', '/'] ++ rest.takeWhile (fun c => c ≠ '/')⟩
  | none => url

/-! ## Filter stage (scraper.py lines 203-250) -/

/-- The search text of `filter_events_by_keywords`:
`" ".join([title or "", description or "", location or ""]).lower()`. -/
def searchText (e : EventRecord) : String :=
  pyLower ((e.title.getD "") ++ " " ++ (e.description.getD "") ++ " " ++ (e.location.getD ""))

/-- `filter_events_by_keywords` (scraper.py lines 203-226). -/
def filter_events_by_keywords (events : List EventRecord) (keywords : List String) :
    List EventRecord :=
  if keywords.isEmpty then events
  else
    let keywords_lower := keywords.map pyLower
    events.filter (fun e => keywords_lower.any (fun kw => pyIn kw (searchText e)))

/-- `filter_events_by_location` (scraper.py lines 229-250). -/
def filter_events_by_location (events : List EventRecord) (location : Option String) :
    List EventRecord :=
  if pyFalsy location then events
  else
    let location_lower := pyLower (location.getD "")
    events.filter (fun e =>
      pyIn location_lower (pyLower (e.location.getD "")) ||
      pyIn location_lower (pyLower (e.title.getD "")) ||
      pyIn location_lower (pyLower (e.description.getD "")))

/-! ## Deduplication (scraper.py lines 347-359) -/

/-- The deduplication key: `event.get("title", "").lower().strip()`. -/
def normTitle (e : EventRecord) : String :=
  pyStrip (pyLower (e.title.getD ""))

/-- Loop of `_deduplicate_events`, with the `seen_titles` set threaded as a
list of the titles added so far. -/
def dedupAux (seen : List String) : List EventRecord → List EventRecord
  | [] => []
  | e :: rest =>
    let title := normTitle e
    if title ≠ "" ∧ title ∉ seen then e :: dedupAux (title :: seen) rest
    else dedupAux seen rest

/-- `_deduplicate_events` (scraper.py lines 347-359); the leading underscore
of the Python name is dropped. -/
def deduplicate_events (events : List EventRecord) : List EventRecord :=
  dedupAux [] events

/-! ## Demo data generator (scraper.py lines 362-418) -/

/-- `intent.get("location", "Catalunya")` interpolated by the f-strings of
`_get_demo_events`: a missing key yields the default, a key bound to `None`
prints as `"None"`. -/
def demoLoc (intent : Intent) : String :=
  match intent.location with
  | none => "Catalunya"
  | some v => pyStrOfOpt v

/-- First baseline demo record. -/
def demoFesta (loc : String) : EventRecord :=
  { title := some ("Festa Major de " ++ loc)
  , date := some "15-18 d\x27agost de 2025"
  , location := some loc
  , description := some "Quatre dies de festa amb concerts, correfocs, gegants i activitats per a tota la família. No et perdis el castell de focs artificials!"
  , source_url := some "https://example.com/festa-major"
  , source_name := "Demo" }

/-- Second baseline demo record. -/
def demoMercat (loc : String) : EventRecord :=
  { title := some "Mercat d\x27Artesania Local"
  , date := some "Cada dissabte"
  , location := some ("Plaça Major, " ++ loc)
  , description := some "Descobreix productes artesanals de la zona: ceràmica, teixits, productes d\x27alimentació i molt més."
  , source_url := some "https://example.com/mercat"
  , source_name := "Demo" }

/-- Third baseline demo record. -/
def demoRuta (loc : String) : EventRecord :=
  { title := some "Ruta de Tapes Gastronòmiques"
  , date := some "Del 20 al 27 d\x27agost"
  , location := some ("Diversos restaurants de " ++ loc)
  , description := some "Gaudeix de les millors tapes dels restaurants locals amb una experiència culinària única."
  , source_url := some "https://example.com/tapes"
  , source_name := "Demo" }

/-- The jazz/concert bonus record. -/
def demoJazz (loc : String) : EventRecord :=
  { title := some "Festival de Jazz al Carrer"
  , date := some "22 d\x27agost de 2025, 21:00h"
  , location := some ("Parc Central, " ++ loc)
  , description := some "Concert gratuït amb les millors bandes de jazz de Catalunya. Porta la teva manta i gaudeix sota les estrelles."
  , source_url := some "https://example.com/jazz"
  , source_name := "Demo" }

/-- The family/children bonus record. -/
def demoFam (loc : String) : EventRecord :=
  { title := some "Taller de Circ per a Nens"
  , date := some "Diumenge 24 d\x27agost, 11:00h"
  , location := some ("Centre Cívic de " ++ loc)
  , description := some "Activitat gratuïta per a nens de 4 a 12 anys. Aprenen malabars, equilibri i molt més!"
  , source_url := some "https://example.com/circ"
  , source_name := "Demo" }

/-- `any(kw in ["música", "concert", "jazz"] for kw in keywords)`. -/
def jazzTriggered (keywords : List String) : Bool :=
  keywords.any (fun kw => (["música", "concert", "jazz"] : List String).contains kw)

/-- `any(kw in ["nens", "familiar", "infantil", "família"] for kw in keywords)`. -/
def famTriggered (keywords : List String) : Bool :=
  keywords.any (fun kw => (["nens", "familiar", "infantil", "família"] : List String).contains kw)

/-- `_get_demo_events` (scraper.py lines 362-418); the leading underscore of
the Python name is dropped.  `list.insert(0, x)` is `x :: ·`: the jazz
record is inserted first, then the family record in front of it. -/
def get_demo_events (intent : Intent) : List EventRecord :=
  let location := demoLoc intent
  let demo0 := [demoFesta location, demoMercat location, demoRuta location]
  let demo1 := if jazzTriggered intent.keywords then demoJazz location :: demo0 else demo0
  if famTriggered intent.keywords then demoFam location :: demo1 else demo1

/-! ## Per-source pipeline and aggregator (scraper.py lines 253-344)

The two effectful steps are oracle parameters: a fetch oracle mapping a URL
to the outcome of `fetch_url` as seen by its caller (an uncaught raised
exception, the `None` that `fetch_url` returns after catching an
`httpx.HTTPError`, or the page text), and a parse oracle standing for
`parse_events_from_html`'s BeautifulSoup traversal of that text.  All
control flow around them is embedded from the source. -/

/-- Outcome of `await fetch_url(client, url)` as seen by `scrape_source`. -/
inductive FetchOut where
  | raised (msg : String)
  | absent
  | gotHtml (html : String)
deriving DecidableEq, Repr

/-- Outcome of one task as collected by `asyncio.gather(..., return_exceptions=True)`:
either the list the coroutine returned or the exception it raised. -/
inductive GatherOutcome where
  | ok (events : List EventRecord)
  | exc (msg : String)
deriving DecidableEq, Repr

/-- The records a gather outcome contributes to `all_events`: an exception
contributes none (scraper.py lines 331-335). -/
def okEvents : GatherOutcome → List EventRecord
  | .ok l => l
  | .exc _ => []

/-- Leftmost non-overlapping replacement of `pat` by `rep`, with enough fuel
to walk the whole list (the fuel never runs out when it starts at the list's
length, since every step consumes at least one character). -/
def pyReplaceAux (pat rep : List Char) : Nat → List Char → List Char
  | _, [] => []
  | 0, l => l
  | fuel + 1, c :: rest =>
    if pat ≠ [] ∧ pat.isPrefixOf (c :: rest) then
      rep ++ pyReplaceAux pat rep fuel ((c :: rest).drop pat.length)
    else c :: pyReplaceAux pat rep fuel rest

/-- Python `s.replace(pat, rep)` (every occurrence, leftmost first), which
is what `search_url.format(keywords=...)` performs on its single
`\x7bkeywords\x7d` field. -/
def pyReplace (s pat rep : String) : String :=
  ⟨pyReplaceAux pat.data rep.data s.data.length s.data⟩

/-- URL construction of `scrape_source` (scraper.py lines 272-279):
substitute the space-joined keywords into `search_url` when both it and the
keyword string are non-empty (Python truthiness), else use `url`. -/
def buildUrl (source : Source) (intent : Intent) : String :=
  let keywords_str := if intent.keywords.isEmpty then "" else String.intercalate " " intent.keywords
  match source.search_url with
  | some t => if t ≠ "" ∧ keywords_str ≠ "" then pyReplace t "\x7bkeywords\x7d" keywords_str else source.url
  | none => source.url

/-- `scrape_source` (scraper.py lines 253-295) under fetch and parse
oracles.  A raised fetch exception escapes the coroutine (`.exc`); a `None`
or empty page yields `[]`; otherwise the parsed events pass through the
keyword filter and then the location filter. -/
def scrape_source (fetchO : String → FetchOut) (parseO : String → Source → List EventRecord)
    (source : Source) (intent : Intent) : GatherOutcome :=
  if source.enabled = false then .ok []
  else
    match fetchO (buildUrl source intent) with
    | .raised msg => .exc msg
    | .absent => .ok []
    | .gotHtml html =>
      if html = "" then .ok []
      else
        let events := parseO html source
        let events := filter_events_by_keywords events intent.keywords
        let events := filter_events_by_location events intent.location.join
        .ok events

/-- The fan-in loop of `scrape_all_sources` (lines 331-335): extend
`all_events` with each list result, skip exceptions. -/
def gatherFold (results : List GatherOutcome) : List EventRecord :=
  results.foldl (fun acc r =>
    match r with
    | .ok l => acc ++ l
    | .exc _ => acc) []

/-- `scrape_all_sources` (scraper.py lines 298-344).  `asyncio.gather`
returns its results in task order, so the per-task outcomes are
`enabled_sources.map (scrape_source ...)`; `joinArrivals` below models how
gather produces that order from arbitrary completion order. -/
def scrape_all_sources (sources : List Source) (fetchO : String → FetchOut)
    (parseO : String → Source → List EventRecord) (intent : Intent) : AggResult :=
  let enabled_sources := sources.filter (fun s => s.enabled)
  if enabled_sources.isEmpty then
    { content := get_demo_events intent
    , sources_scraped := 0
    , events_found := 3 }
  else
    let results := enabled_sources.map (fun s => scrape_source fetchO parseO s intent)
    let all_events := gatherFold results
    let unique_events := deduplicate_events all_events
    { content := unique_events
    , sources_scraped := enabled_sources.length
    , events_found := unique_events.length }

/-- The join performed by `asyncio.gather`: completions arrive as
`(task index, outcome)` pairs in an arbitrary order, and the gathered list
is read out slot by slot in task-index order. -/
def joinArrivals (n : Nat) (arrivals : List (Nat × GatherOutcome)) : List GatherOutcome :=
  (List.range n).map (fun i =>
    match arrivals.find? (fun p => p.1 == i) with
    | some p => p.2
    | none => .exc "missing")

/-- `scrape_all_sources` with the gather join made explicit: the per-task
outcomes are reassembled from the completion stream `arrivals`. -/
def scrape_all_sources_arrivals (sources : List Source)
    (arrivals : List (Nat × GatherOutcome)) (intent : Intent) : AggResult :=
  let enabled_sources := sources.filter (fun s => s.enabled)
  if enabled_sources.isEmpty then
    { content := get_demo_events intent
    , sources_scraped := 0
    , events_found := 3 }
  else
    let results := joinArrivals enabled_sources.length arrivals
    let all_events := gatherFold results
    let unique_events := deduplicate_events all_events
    { content := unique_events
    , sources_scraped := enabled_sources.length
    , events_found := unique_events.length }

/-! ## Lemmas about the filter stage -/

/-- The keep-predicate of `filter_events_by_keywords` as a single boolean. -/
def kwPred (keywords : List String) (e : EventRecord) : Bool :=
  keywords.isEmpty || (keywords.map pyLower).any (fun kw => pyIn kw (searchText e))

/-- The keep-predicate of `filter_events_by_location` as a single boolean. -/
def locPred (location : Option String) (e : EventRecord) : Bool :=
  pyFalsy location ||
    (pyIn (pyLower (location.getD "")) (pyLower (e.location.getD "")) ||
     pyIn (pyLower (location.getD "")) (pyLower (e.title.getD "")) ||
     pyIn (pyLower (location.getD "")) (pyLower (e.description.getD "")))

theorem filter_keywords_eq_filter (events : List EventRecord) (keywords : List String) :
    filter_events_by_keywords events keywords = events.filter (kwPred keywords) := by
  unfold filter_events_by_keywords kwPred
  cases h : keywords.isEmpty with
  | true => simp [h]
  | false => simp [h]

theorem filter_location_eq_filter (events : List EventRecord) (location : Option String) :
    filter_events_by_location events location = events.filter (locPred location) := by
  unfold filter_events_by_location locPred
  cases h : pyFalsy location with
  | true => simp [h]
  | false => simp [h]

/-! ## Lemmas about deduplication -/

theorem dedupAux_mem (l : List EventRecord) :
    ∀ (seen : List String) (e : EventRecord), e ∈ dedupAux seen l →
      e ∈ l ∧ normTitle e ∉ seen ∧ normTitle e ≠ "" := by
  induction l with
  | nil => intro seen e he; simp [dedupAux] at he
  | cons a rest ih =>
    intro seen e he
    unfold dedupAux at he
    by_cases h : normTitle a ≠ "" ∧ normTitle a ∉ seen
    · rw [if_pos h] at he
      rcases List.mem_cons.mp he with he | he
      · rw [he]; exact ⟨List.mem_cons_self a rest, h.2, h.1⟩
      · rcases ih (normTitle a :: seen) e he with ⟨h1, h2, h3⟩
        exact ⟨List.mem_cons_of_mem a h1, fun hs => h2 (List.mem_cons_of_mem _ hs), h3⟩
    · rw [if_neg h] at he
      rcases ih seen e he with ⟨h1, h2, h3⟩
      exact ⟨List.mem_cons_of_mem a h1, h2, h3⟩

theorem dedupAux_pairwise (l : List EventRecord) :
    ∀ seen : List String,
      (dedupAux seen l).Pairwise (fun a b => normTitle a ≠ normTitle b) := by
  induction l with
  | nil => intro seen; simp [dedupAux]
  | cons a rest ih =>
    intro seen
    unfold dedupAux
    by_cases h : normTitle a ≠ "" ∧ normTitle a ∉ seen
    · rw [if_pos h]
      refine List.Pairwise.cons ?_ (ih (normTitle a :: seen))
      intro b hb hab
      exact (dedupAux_mem rest _ b hb).2.1 (by rw [← hab]; exact List.mem_cons_self _ _)
    · rw [if_neg h]; exact ih seen

theorem dedupAux_find? (l : List EventRecord) :
    ∀ (seen : List String) (t : String), t ≠ "" → t ∉ seen →
      (dedupAux seen l).find? (fun r => normTitle r == t)
        = l.find? (fun r => normTitle r == t) := by
  induction l with
  | nil => intro seen t _ _; rfl
  | cons a rest ih =>
    intro seen t ht hts
    unfold dedupAux
    by_cases h : normTitle a ≠ "" ∧ normTitle a ∉ seen
    · rw [if_pos h]
      by_cases hat : normTitle a = t
      · simp [List.find?_cons, hat]
      · have hb : (normTitle a == t) = false := beq_false_of_ne hat
        simp only [List.find?_cons, hb]
        exact ih (normTitle a :: seen) t ht (by
          intro hmem
          rcases List.mem_cons.mp hmem with h1 | h1
          · exact hat h1.symm
          · exact hts h1)
    · rw [if_neg h]
      have hat : normTitle a ≠ t := by
        intro he
        apply h
        rw [he]
        exact ⟨ht, hts⟩
      have hb : (normTitle a == t) = false := beq_false_of_ne hat
      simp only [List.find?_cons, hb]
      exact ih seen t ht hts

theorem dedupAux_fixed (l : List EventRecord) :
    ∀ seen : List String,
      (∀ e ∈ l, normTitle e ∉ seen ∧ normTitle e ≠ "") →
      l.Pairwise (fun a b => normTitle a ≠ normTitle b) →
      dedupAux seen l = l := by
  induction l with
  | nil => intro seen _ _; rfl
  | cons a rest ih =>
    intro seen hmem hpw
    unfold dedupAux
    have ha := hmem a (List.mem_cons_self a rest)
    rw [if_pos ⟨ha.2, ha.1⟩]
    congr 1
    refine ih (normTitle a :: seen) ?_ hpw.of_cons
    intro e he
    refine ⟨?_, (hmem e (List.mem_cons_of_mem a he)).2⟩
    intro hs
    rcases List.mem_cons.mp hs with h1 | h1
    · exact (List.pairwise_cons.mp hpw).1 e he h1.symm
    · exact (hmem e (List.mem_cons_of_mem a he)).1 h1

theorem deduplicate_events_idem (events : List EventRecord) :
    deduplicate_events (deduplicate_events events) = deduplicate_events events := by
  unfold deduplicate_events
  refine dedupAux_fixed _ [] ?_ (dedupAux_pairwise events [])
  intro e he
  exact ⟨by simp, (dedupAux_mem events [] e he).2.2⟩

/-! ## Whitespace and normalized-title lemmas -/

theorem toLower_of_space {c : Char} (h : isPySpace c = true) : Char.toLower c = c := by
  simp only [isPySpace, Bool.or_eq_true, decide_eq_true_eq] at h
  rcases h with ((((h | h) | h) | h) | h) | h <;> rw [h] <;> decide

theorem stripWS_eq_nil {l : List Char} (h : ∀ c ∈ l, isPySpace c = true) :
    stripWS l = [] := by
  unfold stripWS
  rw [List.dropWhile_eq_nil_iff.mpr h]
  rfl

theorem exists_nonspace_of_normTitle_ne (t : String)
    (h : pyStrip (pyLower t) ≠ "") : ∃ c ∈ t.data, isPySpace c = false := by
  by_contra hc
  push_neg at hc
  apply h
  have hall : ∀ c ∈ (pyLower t).data, isPySpace c = true := by
    intro c hcmem
    simp only [pyLower] at hcmem
    rcases List.mem_map.mp hcmem with ⟨d, hd, hdc⟩
    have hds : isPySpace d = true := by
      have := hc d hd
      cases hv : isPySpace d with
      | true => rfl
      | false => exact absurd hv this
    rw [← hdc, toLower_of_space hds]
    exact hds
  show pyStrip (pyLower t) = ""
  unfold pyStrip
  rw [stripWS_eq_nil hall]

/-! ## Lemmas about the aggregation fan-in -/

theorem gatherFold_eq_flatten (results : List GatherOutcome) :
    gatherFold results = (results.map okEvents).flatten := by
  have haux : ∀ (l : List GatherOutcome) (acc : List EventRecord),
      l.foldl (fun acc r =>
        match r with
        | .ok el => acc ++ el
        | .exc _ => acc) acc = acc ++ (l.map okEvents).flatten := by
    intro l
    induction l with
    | nil => intro acc; simp
    | cons r t ih =>
      intro acc
      cases r with
      | ok el => simp [List.foldl_cons, ih, okEvents, List.append_assoc]
      | exc m => simp [List.foldl_cons, ih, okEvents]
  unfold gatherFold
  rw [haux]
  rfl

theorem filter_enumFrom_small {α : Type} (l : List α) :
    ∀ k i : Nat, i < k →
      (List.enumFrom k l).filter (fun p => p.1 == i) = [] := by
  induction l with
  | nil => intro k i _; rfl
  | cons a t ih =>
    intro k i hik
    have hk : (k == i) = false := beq_false_of_ne (by omega)
    simp only [List.enumFrom, List.filter_cons, hk]
    exact ih (k + 1) i (by omega)

theorem filter_enumFrom_eq {α : Type} (l : List α) :
    ∀ (k i : Nat) (h : i < l.length),
      (List.enumFrom k l).filter (fun p => p.1 == k + i) = [(k + i, l.get ⟨i, h⟩)] := by
  induction l with
  | nil => intro k i h; exact absurd h (by simp)
  | cons a t ih =>
    intro k i h
    cases i with
    | zero =>
      simp only [List.enumFrom, List.filter_cons, Nat.add_zero, beq_self_eq_true]
      rw [filter_enumFrom_small t (k + 1) k (by omega)]
      rfl
    | succ j =>
      have hk : (k == k + (j + 1)) = false := beq_false_of_ne (by omega)
      simp only [List.enumFrom, List.filter_cons, hk]
      have hrw : k + (j + 1) = (k + 1) + j := by omega
      rw [hrw]
      exact ih (k + 1) j (by simpa using h)

theorem find?_arrivals {arrivals : List (Nat × GatherOutcome)} {l : List GatherOutcome}
    (hperm : arrivals.Perm l.enum) (i : Nat) (h : i < l.length) :
    arrivals.find? (fun p => p.1 == i) = some (i, l.get ⟨i, h⟩) := by
  have hfilter : arrivals.filter (fun p => p.1 == i) = [(i, l.get ⟨i, h⟩)] := by
    have hp := hperm.filter (fun p => p.1 == i)
    have henum : (l.enum).filter (fun p => p.1 == i) = [(i, l.get ⟨i, h⟩)] := by
      have := filter_enumFrom_eq l 0 i h
      simpa using this
    rw [henum] at hp
    exact List.perm_singleton.mp hp
  rw [← List.filter_head? _ arrivals, hfilter]
  rfl

theorem joinArrivals_eq {arrivals : List (Nat × GatherOutcome)} {l : List GatherOutcome}
    (hperm : arrivals.Perm l.enum) :
    joinArrivals l.length arrivals = l := by
  unfold joinArrivals
  refine List.ext_getElem (by simp) ?_
  intro j h1 h2
  have hj : j < l.length := by simpa using h2
  rw [List.getElem_map, List.getElem_range, find?_arrivals hperm j hj]
  simp [List.get_eq_getElem]

/-! ## Structure of the demo generator and the aggregator -/

theorem get_demo_events_eq (intent : Intent) :
    get_demo_events intent
      = (if famTriggered intent.keywords then [demoFam (demoLoc intent)] else [])
        ++ (if jazzTriggered intent.keywords then [demoJazz (demoLoc intent)] else [])
        ++ [demoFesta (demoLoc intent), demoMercat (demoLoc intent), demoRuta (demoLoc intent)] := by
  unfold get_demo_events
  cases famTriggered intent.keywords <;> cases jazzTriggered intent.keywords <;> simp

theorem scrape_all_sources_demo (sources : List Source) (fetchO : String → FetchOut)
    (parseO : String → Source → List EventRecord) (intent : Intent)
    (h : (sources.filter (fun s => s.enabled)).isEmpty = true) :
    scrape_all_sources sources fetchO parseO intent
      = { content := get_demo_events intent, sources_scraped := 0, events_found := 3 } := by
  unfold scrape_all_sources
  simp [h]

theorem scrape_all_sources_content (sources : List Source) (fetchO : String → FetchOut)
    (parseO : String → Source → List EventRecord) (intent : Intent)
    (h : (sources.filter (fun s => s.enabled)).isEmpty = false) :
    (scrape_all_sources sources fetchO parseO intent).content
      = deduplicate_events (((sources.filter (fun s => s.enabled)).map
          (fun s => okEvents (scrape_source fetchO parseO s intent))).flatten) := by
  unfold scrape_all_sources
  simp only [h, Bool.false_eq_true, if_false, gatherFold_eq_flatten, List.map_map]
  rfl

theorem demo_title_nonblank (intent : Intent) (e : EventRecord)
    (he : e ∈ get_demo_events intent) :
    ∃ c ∈ (e.title.getD "").data, isPySpace c = false := by
  rw [get_demo_events_eq] at he
  rcases List.mem_append.mp he with hb | hb
  · rcases List.mem_append.mp hb with hf | hj
    · have : e = demoFam (demoLoc intent) := by
        cases h : famTriggered intent.keywords
        · rw [h] at hf; exact absurd hf (List.not_mem_nil e)
        · rw [h] at hf; exact List.mem_singleton.mp hf
      rw [this]
      refine ⟨'T', ?_, by decide⟩
      simp only [demoFam, Option.getD_some]
      decide
    · have : e = demoJazz (demoLoc intent) := by
        cases h : jazzTriggered intent.keywords
        · rw [h] at hj; exact absurd hj (List.not_mem_nil e)
        · rw [h] at hj; exact List.mem_singleton.mp hj
      rw [this]
      refine ⟨'F', ?_, by decide⟩
      simp only [demoJazz, Option.getD_some]
      decide
  · have hdata : ("Festa Major de " ++ demoLoc intent).data
        = "Festa Major de ".data ++ (demoLoc intent).data := String.data_append _ _
    simp only [List.mem_cons, List.not_mem_nil, or_false] at hb
    rcases hb with h1 | h1 | h1
    · rw [h1]
      refine ⟨'F', ?_, by decide⟩
      simp only [demoFesta, Option.getD_some]
      rw [hdata]
      exact List.mem_append_left _ (by decide)
    · rw [h1]
      refine ⟨'M', ?_, by decide⟩
      simp only [demoMercat, Option.getD_some]
      decide
    · rw [h1]
      refine ⟨'R', ?_, by decide⟩
      simp only [demoRuta, Option.getD_some]
      decide

/-! ## Concrete fixtures used by witnesses -/

/-- An enabled source whose fetch succeeds in the witness scenarios. -/
def wSourceA : Source :=
  { name := "A", url := "https://a.example", srcType := "html", search_url := none
  , selectors :=
    { event_container := ".e", title := ".t", date := ".d"
    , location := ".l", description := ".x", link := "a" }
  , enabled := true }

/-- An enabled source whose fetch raises in the witness scenarios. -/
def wSourceB : Source :=
  { name := "B", url := "https://b.example", srcType := "html", search_url := none
  , selectors :=
    { event_container := ".e", title := ".t", date := ".d"
    , location := ".l", description := ".x", link := "a" }
  , enabled := true }

/-- The event parsed from source A in the witness scenarios. -/
def wEvA : EventRecord :=
  { title := some "Concert a la plaça", date := some "demà", location := some "Girona"
  , description := some "Concert de festa major", source_url := none, source_name := "A" }

/-- Witness fetch oracle: source B's URL raises, everything else returns a page. -/
def wFetch (u : String) : FetchOut :=
  if u = "https://b.example" then .raised "boom" else .gotHtml "<p>"

/-- Witness parse oracle: source A yields one event, everything else none. -/
def wParse (_ : String) (src : Source) : List EventRecord :=
  if src.name = "A" then [wEvA] else []

/-- Witness intent with no keyword and no location constraint. -/
def wIntent : Intent := { keywords := [], location := none }

/-! ## The claims -/

/-- C1: with zero enabled descriptors (the shipped `SOURCES`), the aggregate
returns the demo dataset for the intent with `sources_scraped = 0`; but on
a jazz-triggering intent the demo dataset has 4 events while the returned
`events_found` is the hard-coded 3, contradicting the code's own docstring
("events_found: Total events found") and the claimed
`events_found = events.length`. -/
theorem aggregate_demo_events_found_bug :
    (scrape_all_sources SOURCES (fun _ => .absent) (fun _ _ => [])
        { keywords := ["jazz"], location := none }).sources_scraped = 0
    ∧ (scrape_all_sources SOURCES (fun _ => .absent) (fun _ _ => [])
        { keywords := ["jazz"], location := none }).content
        = get_demo_events { keywords := ["jazz"], location := none }
    ∧ (scrape_all_sources SOURCES (fun _ => .absent) (fun _ _ => [])
        { keywords := ["jazz"], location := none }).content.length = 4
    ∧ (scrape_all_sources SOURCES (fun _ => .absent) (fun _ _ => [])
        { keywords := ["jazz"], location := none }).events_found = 3 := by
  decide

/-- C2 (amended): deduplication is idempotent, its output has pairwise
distinct normalized titles, and for every NONEMPTY normalized title the
retained record is the first-occurring one in input order (the first match
of `find?` is preserved); records whose normalized title is empty are
dropped entirely, so an empty normalized title retains no record at all
(see the counterexample). -/
theorem dedup_spec_amended (events : List EventRecord) :
    deduplicate_events (deduplicate_events events) = deduplicate_events events
    ∧ (deduplicate_events events).Pairwise (fun a b => normTitle a ≠ normTitle b)
    ∧ ∀ t : String, t ≠ "" →
        (deduplicate_events events).find? (fun r => normTitle r == t)
          = events.find? (fun r => normTitle r == t) :=
  ⟨deduplicate_events_idem events, dedupAux_pairwise events [],
    fun t ht => dedupAux_find? events [] t ht (by simp)⟩

/-- C2 witness: `dedup_spec_amended` applied to a concrete three-record
list (two sharing the normalized title "festa") at the nonempty title
"festa". -/
theorem dedup_spec_amended_witness :
    deduplicate_events (deduplicate_events
        [ { title := some "Festa", date := none, location := none, description := none
          , source_url := none, source_name := "X" }
        , { title := some " FESTA ", date := none, location := none, description := none
          , source_url := none, source_name := "Y" }
        , { title := some "Mercat", date := none, location := none, description := none
          , source_url := none, source_name := "Z" } ])
      = deduplicate_events
        [ { title := some "Festa", date := none, location := none, description := none
          , source_url := none, source_name := "X" }
        , { title := some " FESTA ", date := none, location := none, description := none
          , source_url := none, source_name := "Y" }
        , { title := some "Mercat", date := none, location := none, description := none
          , source_url := none, source_name := "Z" } ]
    ∧ (deduplicate_events
        [ { title := some "Festa", date := none, location := none, description := none
          , source_url := none, source_name := "X" }
        , { title := some " FESTA ", date := none, location := none, description := none
          , source_url := none, source_name := "Y" }
        , { title := some "Mercat", date := none, location := none, description := none
          , source_url := none, source_name := "Z" } ]).find? (fun r => normTitle r == "festa")
      = [ { title := some "Festa", date := none, location := none, description := none
          , source_url := none, source_name := "X" }
        , { title := some " FESTA ", date := none, location := none, description := none
          , source_url := none, source_name := "Y" }
        , { title := some "Mercat", date := none, location := none, description := none
          , source_url := none, source_name := "Z" } ].find? (fun r => normTitle r == "festa") :=
  ⟨(dedup_spec_amended _).1, (dedup_spec_amended _).2.2 "festa" (by decide)⟩

/-- C2 counterexample: a record whose title is whitespace-only has the
normalized title `""` occurring in the input, yet deduplication retains no
record at all for it — the claim's "the retained record is the
first-occurring one" fails for this title. -/
theorem dedup_first_occurrence_cex :
    deduplicate_events
        [ { title := some " ", date := none, location := none, description := none
          , source_url := none, source_name := "X" } ] = []
    ∧ normTitle
        { title := some " ", date := none, location := none, description := none
        , source_url := none, source_name := "X" } = "" := by
  decide

/-- C3 (amended): hrefs starting with `"http"` pass through unchanged;
hrefs starting with `"/"` are appended to the WHOLE `base_url` with its
trailing slashes stripped (not to `base_url`'s origin); anything else is
appended after an extra `"/"`. -/
theorem resolve_link_amended (base href : String) :
    (pyStartsWith href "http" = true → resolveLink base href = href)
    ∧ (pyStartsWith href "http" = false → pyStartsWith href "/" = true →
        resolveLink base href = pyRstripSlash base ++ href)
    ∧ (pyStartsWith href "http" = false → pyStartsWith href "/" = false →
        resolveLink base href = pyRstripSlash base ++ "/" ++ href) := by
  refine ⟨?_, ?_, ?_⟩
  · intro h1; simp [resolveLink, h1]
  · intro h1 h2; simp [resolveLink, h1, h2]
  · intro h1 h2; simp [resolveLink, h1, h2]

/-- C3 witness: `resolve_link_amended` applied at concrete hrefs of all
three shapes. -/
theorem resolve_link_amended_witness :
    resolveLink "https://a.example/base/" "http://other.example/p" = "http://other.example/p"
    ∧ resolveLink "https://a.example/base/" "/ca/agenda" = pyRstripSlash "https://a.example/base/" ++ "/ca/agenda"
    ∧ resolveLink "https://a.example/base/" "fitxa.html" = pyRstripSlash "https://a.example/base/" ++ "/" ++ "fitxa.html" :=
  ⟨(resolve_link_amended "https://a.example/base/" "http://other.example/p").1 (by decide),
   (resolve_link_amended "https://a.example/base/" "/ca/agenda").2.1 (by decide) (by decide),
   (resolve_link_amended "https://a.example/base/" "fitxa.html").2.2 (by decide) (by decide)⟩

/-- C3 counterexample: for the registry's own
`base_url = "https://www.barcelona.cat/barcelonacultura"` (whose origin is
`"https://www.barcelona.cat"`), a `/`-href resolves to the full base_url
plus the path, not to the origin plus the path; and a scheme-prefixed but
non-`http` href does not pass through unchanged. -/
theorem resolve_link_origin_cex :
    resolveLink "https://www.barcelona.cat/barcelonacultura" "/ca/agenda"
      = "https://www.barcelona.cat/barcelonacultura/ca/agenda"
    ∧ specUrlOrigin "https://www.barcelona.cat/barcelonacultura"
      = "https://www.barcelona.cat"
    ∧ resolveLink "https://www.barcelona.cat/barcelonacultura" "/ca/agenda"
      ≠ specUrlOrigin "https://www.barcelona.cat/barcelonacultura" ++ "/ca/agenda"
    ∧ resolveLink "https://example.org" "ftp://files.example/x"
      = "https://example.org/ftp://files.example/x" := by
  decide

/-- C4: the aggregate always returns a value (the embedded
`scrape_all_sources` is a total function whose error paths are explicit),
and when one enabled source's pipeline raises during fetch, the result's
events are still the deduplicated merge of every per-source contribution in
registry order, with the failing source contributing zero records. -/
theorem aggregate_partial_failure (sources : List Source) (fetchO : String → FetchOut)
    (parseO : String → Source → List EventRecord) (intent : Intent)
    (s : Source) (msg : String)
    (hmem : s ∈ sources.filter (fun x => x.enabled))
    (hfetch : fetchO (buildUrl s intent) = .raised msg) :
    (scrape_all_sources sources fetchO parseO intent).content
      = deduplicate_events (((sources.filter (fun x => x.enabled)).map
          (fun t => okEvents (scrape_source fetchO parseO t intent))).flatten)
    ∧ okEvents (scrape_source fetchO parseO s intent) = [] := by
  have hne : (sources.filter (fun x => x.enabled)).isEmpty = false :=
    List.isEmpty_eq_false.mpr (List.ne_nil_of_mem hmem)
  refine ⟨scrape_all_sources_content sources fetchO parseO intent hne, ?_⟩
  have hen : s.enabled = true := by
    have := (List.mem_filter.mp hmem).2
    simpa using this
  unfold scrape_source
  rw [if_neg (by simp [hen]), hfetch]
  rfl

/-- C4 witness: `aggregate_partial_failure` with two enabled sources, the
second of which raises during fetch. -/
theorem aggregate_partial_failure_witness :
    (scrape_all_sources [wSourceA, wSourceB] wFetch wParse wIntent).content
      = deduplicate_events ((([wSourceA, wSourceB].filter (fun x => x.enabled)).map
          (fun t => okEvents (scrape_source wFetch wParse t wIntent))).flatten)
    ∧ okEvents (scrape_source wFetch wParse wSourceB wIntent) = [] :=
  aggregate_partial_failure [wSourceA, wSourceB] wFetch wParse wIntent wSourceB "boom"
    (by decide) (by decide)

/-- C5 (amended): the keyword filter keeps a record iff the keyword list is
empty, or some keyword is a case-insensitive substring of the
SPACE-SEPARATED join of title, description and location (missing fields as
empty string) — not of their plain concatenation (see the counterexample);
with an empty keyword list it returns its input unchanged. -/
theorem keyword_filter_spec_amended (events : List EventRecord) (keywords : List String)
    (e : EventRecord) :
    (e ∈ filter_events_by_keywords events keywords ↔
      e ∈ events ∧ (keywords = [] ∨ ∃ kw ∈ keywords, pyIn (pyLower kw) (searchText e) = true))
    ∧ filter_events_by_keywords events [] = events := by
  constructor
  · rw [filter_keywords_eq_filter, List.mem_filter]
    simp [kwPred, List.isEmpty_iff]
  · rfl

/-- C5 counterexample: a record with title `"a"` and description `"b"`
against the single keyword `"ab"`: the keyword IS a substring of the plain
concatenation of the fields, yet the filter (which joins the fields with
spaces) drops the record. -/
theorem keyword_filter_concat_cex :
    filter_events_by_keywords
        [ { title := some "a", date := none, location := none, description := some "b"
          , source_url := none, source_name := "X" } ] ["ab"] = []
    ∧ pyIn (pyLower "ab")
        (pyLower ((some "a" : Option String).getD ""
          ++ ((some "b" : Option String).getD "")
          ++ ((none : Option String).getD ""))) = true := by
  decide

/-- C6: the location filter keeps a record iff the constraint is absent or
empty, or is a case-insensitive substring of the record's title,
description, or location field; with an absent or empty constraint it
returns its input unchanged. -/
theorem location_filter_spec (events : List EventRecord) (location : Option String)
    (e : EventRecord) :
    (e ∈ filter_events_by_location events location ↔
      e ∈ events ∧ (pyFalsy location = true ∨
        pyIn (pyLower (location.getD "")) (pyLower (e.title.getD "")) = true ∨
        pyIn (pyLower (location.getD "")) (pyLower (e.description.getD "")) = true ∨
        pyIn (pyLower (location.getD "")) (pyLower (e.location.getD "")) = true))
    ∧ filter_events_by_location events none = events
    ∧ filter_events_by_location events (some "") = events := by
  refine ⟨?_, rfl, rfl⟩
  rw [filter_location_eq_filter, List.mem_filter]
  simp only [locPred, Bool.or_eq_true, and_congr_right_iff]
  intro _
  tauto

/-- C7: the aggregate's events are the deduplication of the per-source
record sequences concatenated in static registry order, and the completion
order of the concurrent tasks does not affect the result: reassembling the
gather join from ANY permutation of the indexed completion stream yields
the same aggregate. -/
theorem aggregate_order_independent (sources : List Source) (fetchO : String → FetchOut)
    (parseO : String → Source → List EventRecord) (intent : Intent)
    (arrivals : List (Nat × GatherOutcome))
    (hperm : arrivals.Perm (((sources.filter (fun s => s.enabled)).map
        (fun s => scrape_source fetchO parseO s intent)).enum)) :
    scrape_all_sources_arrivals sources arrivals intent
        = scrape_all_sources sources fetchO parseO intent
    ∧ ((sources.filter (fun s => s.enabled)).isEmpty = false →
        (scrape_all_sources sources fetchO parseO intent).content
          = deduplicate_events (((sources.filter (fun s => s.enabled)).map
              (fun s => okEvents (scrape_source fetchO parseO s intent))).flatten)) := by
  constructor
  · unfold scrape_all_sources_arrivals scrape_all_sources
    cases h : (sources.filter (fun s => s.enabled)).isEmpty with
    | true => simp [h]
    | false =>
      simp only [h, Bool.false_eq_true, if_false]
      have hjoin : joinArrivals (sources.filter (fun s => s.enabled)).length arrivals
          = (sources.filter (fun s => s.enabled)).map
              (fun s => scrape_source fetchO parseO s intent) := by
        have hj := joinArrivals_eq hperm
        rwa [List.length_map] at hj
      rw [hjoin]
  · intro h
    exact scrape_all_sources_content sources fetchO parseO intent h

/-- C7 witness: `aggregate_order_independent` with two enabled sources
whose completions arrive in reversed order. -/
theorem aggregate_order_independent_witness :
    scrape_all_sources_arrivals [wSourceA, wSourceB]
        [(1, .exc "boom"), (0, .ok [wEvA])] wIntent
      = scrape_all_sources [wSourceA, wSourceB] wFetch wParse wIntent
    ∧ (scrape_all_sources [wSourceA, wSourceB] wFetch wParse wIntent).content
      = deduplicate_events ((([wSourceA, wSourceB].filter (fun s => s.enabled)).map
          (fun s => okEvents (scrape_source wFetch wParse s wIntent))).flatten) := by
  have h := aggregate_order_independent [wSourceA, wSourceB] wFetch wParse wIntent
    [(1, .exc "boom"), (0, .ok [wEvA])] (by decide)
  exact ⟨h.1, h.2 (by decide)⟩

/-- C8: the demo generator is a pure function of the intent returning 3, 4
or 5 records in the order [family?, jazz?, festival, market, tapas-route];
the family record is prepended iff some keyword exact-matches one of
nens/familiar/infantil/família, the jazz record iff some keyword
exact-matches one of música/concert/jazz (membership, not substring), the
two triggers independent and additive. -/
theorem demo_generator_spec (intent : Intent) :
    get_demo_events intent
      = (if famTriggered intent.keywords then [demoFam (demoLoc intent)] else [])
        ++ (if jazzTriggered intent.keywords then [demoJazz (demoLoc intent)] else [])
        ++ [demoFesta (demoLoc intent), demoMercat (demoLoc intent), demoRuta (demoLoc intent)]
    ∧ (get_demo_events intent).length
      = 3 + (if famTriggered intent.keywords then 1 else 0)
          + (if jazzTriggered intent.keywords then 1 else 0)
    ∧ (famTriggered intent.keywords = true ↔
        ∃ kw ∈ intent.keywords, kw = "nens" ∨ kw = "familiar" ∨ kw = "infantil" ∨ kw = "família")
    ∧ (jazzTriggered intent.keywords = true ↔
        ∃ kw ∈ intent.keywords, kw = "música" ∨ kw = "concert" ∨ kw = "jazz") := by
  refine ⟨get_demo_events_eq intent, ?_, ?_, ?_⟩
  · rw [get_demo_events_eq intent]
    cases famTriggered intent.keywords <;> cases jazzTriggered intent.keywords <;> simp
  · simp [famTriggered, List.any_eq_true]
  · simp [jazzTriggered, List.any_eq_true]

/-- C9: the keyword filter and the location filter commute. -/
theorem filters_commute (events : List EventRecord) (keywords : List String)
    (location : Option String) :
    filter_events_by_keywords (filter_events_by_location events location) keywords
      = filter_events_by_location (filter_events_by_keywords events keywords) location := by
  rw [filter_keywords_eq_filter, filter_location_eq_filter,
    filter_keywords_eq_filter, filter_location_eq_filter]
  exact List.filter_comm _ _ _

/-- C10: deduplication only retains records whose normalized title is
nonempty (absent or whitespace-only titles are dropped even without a
duplicate), and every record in the aggregate result (demo branch or
scraped branch) has a title containing a non-whitespace character. -/
theorem titles_nonblank (events : List EventRecord) (e : EventRecord) :
    (e ∈ deduplicate_events events →
      normTitle e ≠ "" ∧ ∃ c ∈ (e.title.getD "").data, isPySpace c = false)
    ∧ ∀ (sources : List Source) (fetchO : String → FetchOut)
        (parseO : String → Source → List EventRecord) (intent : Intent),
        e ∈ (scrape_all_sources sources fetchO parseO intent).content →
        ∃ c ∈ (e.title.getD "").data, isPySpace c = false := by
  have hdedup : ∀ l : List EventRecord, e ∈ deduplicate_events l →
      normTitle e ≠ "" ∧ ∃ c ∈ (e.title.getD "").data, isPySpace c = false := by
    intro l he
    have hne := (dedupAux_mem l [] e he).2.2
    exact ⟨hne, exists_nonspace_of_normTitle_ne _ hne⟩
  refine ⟨hdedup events, ?_⟩
  intro sources fetchO parseO intent he
  cases h : (sources.filter (fun s => s.enabled)).isEmpty with
  | true =>
    rw [scrape_all_sources_demo sources fetchO parseO intent h] at he
    exact demo_title_nonblank intent e he
  | false =>
    rw [scrape_all_sources_content sources fetchO parseO intent h] at he
    exact (hdedup _ he).2

/-- C10 witness: `titles_nonblank` applied to a concrete deduplication
input and to the demo branch of a concrete aggregate call. -/
theorem titles_nonblank_witness :
    (normTitle wEvA ≠ "" ∧ ∃ c ∈ (wEvA.title.getD "").data, isPySpace c = false)
    ∧ ∃ c ∈ ((demoFesta "Catalunya").title.getD "").data, isPySpace c = false :=
  ⟨(titles_nonblank [wEvA] wEvA).1 (by decide),
   (titles_nonblank [] (demoFesta "Catalunya")).2 SOURCES (fun _ => .absent) (fun _ _ => [])
     { keywords := [], location := none } (by decide)⟩

end Vilabot
